import Mathlib

/-!
Verification of `lib/roi_data_layer/layer.py` (adversarial Fast R-CNN training
layers).  Tensor data (float arrays) is modelled with exact rationals; values
produced by transcendental functions (`np.log`, `np.exp`) live in `ℝ`.
Randomness (`np.random.*`) is modelled as an explicit input, constrained by the
hypotheses that the source guarantees for it.
-/

/- ------------------------------------------------------------------ -/
/- Definitions                                                         -/
/- ------------------------------------------------------------------ -/

/-- A layer `setup` run, as the host executes it: `reshapeIdxs` are the output
slot indices on which `top[idx].reshape(...)` is called (an index `≥ nTop`
raises an `IndexError`), and `assertCount` is the expected slot count of a
final `assert len(top) == len(self._name_to_top_map)` when the layer has one.
Returns `true` when setup fails. -/
def setup_run (reshapeIdxs : List Nat) (assertCount : Option Nat) (nTop : Nat) : Bool :=
  reshapeIdxs.any (fun i => nTop ≤ i) ||
    (match assertCount with
     | some c => nTop != c
     | none => false)

/-- Number of names `RoIDataLayer.setup` puts in `_name_to_top_map`:
`data`, then (`im_info`, `gt_boxes`) under `cfg.TRAIN.HAS_RPN`, else
(`rois`, `labels`) plus three bbox blobs under `cfg.TRAIN.BBOX_REG`. -/
def roi_map_size (hasRpn bboxReg : Bool) : Nat :=
  1 + (if hasRpn then 2 else 2 + (if bboxReg then 3 else 0))

/-- `RoIDataLayer.setup`: reshapes slots `0..size-1` and asserts the count. -/
def roi_setup_fails (hasRpn bboxReg : Bool) (nTop : Nat) : Bool :=
  setup_run (List.range (roi_map_size hasRpn bboxReg)) (some (roi_map_size hasRpn bboxReg)) nTop

/-- Number of names `OHEMDataLayer.setup` declares: `rois_hard`, `labels_hard`,
three bbox blobs under `cfg.TRAIN.BBOX_REG`, and `prop_before` under
`cfg.TRAIN.USE_ASDN`. -/
def ohem_map_size (bboxReg useAsdn : Bool) : Nat :=
  2 + (if bboxReg then 3 else 0) + (if useAsdn then 1 else 0)

/-- `OHEMDataLayer.setup`: also contains `assert cfg.TRAIN.HAS_RPN == False`. -/
def ohem_setup_fails (hasRpn bboxReg useAsdn : Bool) (nTop : Nat) : Bool :=
  hasRpn || setup_run (List.range (ohem_map_size bboxReg useAsdn))
    (some (ohem_map_size bboxReg useAsdn)) nTop

/-- `ASDNPretrainLossLayer.setup`: one top (`loss`), with assert. -/
def asdn_pretrain_loss_setup_fails (nTop : Nat) : Bool :=
  setup_run (List.range 1) (some 1) nTop

/-- `ASDNPretrainLabelLayer.setup`: three tops, with assert. -/
def asdn_pretrain_label_setup_fails (nTop : Nat) : Bool :=
  setup_run (List.range 3) (some 3) nTop

/-- `ASDNPretrainDataLayer.setup`: two tops, with assert. -/
def asdn_pretrain_data_setup_fails (nTop : Nat) : Bool :=
  setup_run (List.range 2) (some 2) nTop

/-- `ASDNLossLayer.setup`: one top (`loss`), with assert. -/
def asdn_loss_setup_fails (nTop : Nat) : Bool :=
  setup_run (List.range 1) (some 1) nTop

/-- `ASDNDataLayer.setup`: two tops (`mask_thres`, `mask_thres_block`), with assert. -/
def asdn_data_setup_fails (nTop : Nat) : Bool :=
  setup_run (List.range 2) (some 2) nTop

/-- `ASTNDataLayer.setup`: reshapes `top[0]` only; the source contains no
`assert` on the top count. -/
def astn_data_setup_fails (nTop : Nat) : Bool :=
  setup_run (List.range 1) none nTop

/-- Number of names `ASTNDataLayer.setup` declares (`trans_feat`). -/
def astn_data_map_size : Nat := 1

/-- `ASTNLossLayer.setup`: reshapes `top[0]` only; no count assert in source. -/
def astn_loss_setup_fails (nTop : Nat) : Bool :=
  setup_run (List.range 1) none nTop

/-- Number of names `ASTNLossLayer.setup` declares (`labels`). -/
def astn_loss_map_size : Nat := 1

/-- `np.finfo(float).eps` for IEEE double precision. -/
def flt_min : ℚ := 1 / 2 ^ 52

/-- Argument of the logarithm in the OHEM classification loss
(`-1 * np.log(max(x, flt_min))` with `x = cls_prob[i, label]`). -/
def ohem_cls_log_arg (cls_prob : Nat → Nat → ℚ) (labels : Nat → Nat) (i : Nat) : ℚ :=
  max (cls_prob i (labels i)) flt_min

/-- Argument of the logarithm in `ASTNLossLayer.forward`
(`-np.log(1 - prob_pre[range(batch_size), labels])`): no epsilon floor. -/
def astn_log_arg (prob_pre : Nat → Nat → ℚ) (labels : Nat → Nat) (i : Nat) : ℚ :=
  1 - prob_pre i (labels i)

/-- `np.linspace(-1.0, 1.0, n)` at index `k`.  (For `n = 1`, ℚ division by
zero yields `0`, so the value is `-1`, matching numpy's single-point
linspace.) -/
def linspace (n k : Nat) : ℚ := -1 + 2 * k / ((n : Nat) - 1 : ℚ)

/-- Row 0 of `ASTNDataLayer.generate_grid`'s output at flat position `k`:
`np.meshgrid(x, y)` puts `x[k % width]` and `y[k / width]` at `k`, and the
rotation matrix row `[cosa, sina]` is applied.  `sina`/`cosa` stand for
`np.sin(alpha)`/`np.cos(alpha)`. -/
def grid_x (sina cosa : ℚ) (width height k : Nat) : ℚ :=
  cosa * linspace width (k % width) + sina * linspace height (k / width)

/-- Row 1 of `generate_grid`'s output (rotation matrix row `[-sina, cosa]`). -/
def grid_y (sina cosa : ℚ) (width height k : Nat) : ℚ :=
  -sina * linspace width (k % width) + cosa * linspace height (k / width)

/-- `np.clip(v, 0, hi)`. -/
def clip_idx (v hi : ℤ) : ℤ := min hi (max 0 v)

/-- `ASTNDataLayer.bilinear_sample` at output position `(i, j, r, c)`:
rescale the grid to pixel coordinates, floor/clip the four corner indices,
gather `source[i, j, x_, y_]` (the source's axis 2 is indexed with the
x/width coordinate, axis 3 with the y/height coordinate, exactly as the
source line `Ia[i, j, ...] = source[i, j, x0[i, j, :], y0[i, j, :]]` does),
and combine with the bilinear weights computed from the clipped corners.
The flattened output `temp` is reshaped to the source's shape, so output
position `(r, c)` reads flat grid position `r * width + c`. -/
def bilinear_sample (source : Nat → Nat → Nat → Nat → ℚ) (width height : Nat)
    (gx gy : Nat → ℚ) (i j r c : Nat) : ℚ :=
  let k := r * width + c
  let x : ℚ := 1/2 * (gx k + 1) * ((width : Nat) - 1 : ℚ)
  let y : ℚ := 1/2 * (gy k + 1) * ((height : Nat) - 1 : ℚ)
  let x0 := clip_idx ⌊x⌋ ((width : ℤ) - 1)
  let x1 := clip_idx ⌊x + 1⌋ ((width : ℤ) - 1)
  let y0 := clip_idx ⌊y⌋ ((height : ℤ) - 1)
  let y1 := clip_idx ⌊y + 1⌋ ((height : ℤ) - 1)
  let va := source i j x0.toNat y0.toNat
  let vb := source i j x0.toNat y1.toNat
  let vc := source i j x1.toNat y0.toNat
  let vd := source i j x1.toNat y1.toNat
  let wa := ((x1 : ℚ) - x) * ((y1 : ℚ) - y)
  let wb := ((x1 : ℚ) - x) * (y - (y0 : ℚ))
  let wc := (x - (x0 : ℚ)) * ((y1 : ℚ) - y)
  let wd := (x - (x0 : ℚ)) * (y - (y0 : ℚ))
  va * wa + vb * wb + vc * wc + vd * wd

/-- `ASTNDataLayer.forward` for one channel block: the grid produced by
`generate_grid` for the block's angle, fed to `bilinear_sample`. -/
def astn_trans_feat (source : Nat → Nat → Nat → Nat → ℚ) (width height : Nat)
    (sina cosa : ℚ) (i j r c : Nat) : ℚ :=
  bilinear_sample source width height (grid_x sina cosa width height)
    (grid_y sina cosa width height) i j r c

/-- The identity transform: block angle `0`, i.e. `sin = 0`, `cos = 1`. -/
def astn_trans_feat_angle0 (source : Nat → Nat → Nat → Nat → ℚ) (width height : Nat)
    (i j r c : Nat) : ℚ :=
  astn_trans_feat source width height 0 1 i j r c

/-- `ASTNLossLayer.forward` per-sample loss before the background-zeroing
loop: `-np.log(1 - prob_pre[i, labels[i]])`. -/
noncomputable def astn_loss_raw (prob_pre : Nat → Nat → ℚ) (labels : Nat → Nat) (i : Nat) : ℝ :=
  -Real.log (1 - (prob_pre i (labels i) : ℝ))

/-- Per-sample loss after the loop that sets `loss[i] = 0.0` when
`labels[i] == 0`. -/
noncomputable def astn_loss_vec (prob_pre : Nat → Nat → ℚ) (labels : Nat → Nat) (i : Nat) : ℝ :=
  if labels i = 0 then 0 else astn_loss_raw prob_pre labels i

/-- The scalar written to `top[0]`: `np.sum(loss) / batch_size`. -/
noncomputable def astn_loss_top (prob_pre : Nat → Nat → ℚ) (labels : Nat → Nat)
    (batch_size : Nat) : ℝ :=
  (∑ i ∈ Finset.range batch_size, astn_loss_vec prob_pre labels i) / batch_size

/-- Modelled from the spec's words, for comparison with `astn_loss_top`: the
loss "averaged over samples whose label is non-background". -/
noncomputable def astn_spec_avg_nonbg (prob_pre : Nat → Nat → ℚ) (labels : Nat → Nat)
    (batch_size : Nat) : ℝ :=
  (∑ i ∈ (Finset.range batch_size).filter (fun i => labels i ≠ 0),
      astn_loss_raw prob_pre labels i) /
    ((Finset.range batch_size).filter (fun i => labels i ≠ 0)).card

/-- `ASDNLossLayer.forward` per-cell loss term after the two `lZ` lines:
`np.log(1+np.exp(-np.abs(f))) + ((f>0)-t)*f` (the `mask` factor is the
constant `True` because `self.ignore_label` is `None`). -/
noncomputable def asdn_lZ (f t : Nat → Nat → ℚ) (i c : Nat) : ℝ :=
  Real.log (1 + Real.exp (-|(f i c : ℝ)|)) +
    (((if 0 < f i c then (1 : ℚ) else 0) - t i c : ℚ) : ℝ) * (f i c : ℝ)

/-- `dlZ = np.exp(np.minimum(f,0)) / (np.exp(np.minimum(f,0)) + np.exp(-np.maximum(f,0)))`. -/
noncomputable def asdn_dlZ (f : Nat → Nat → ℚ) (i c : Nat) : ℝ :=
  Real.exp ((min (f i c) 0 : ℚ)) /
    (Real.exp ((min (f i c) 0 : ℚ)) + Real.exp ((-max (f i c) 0 : ℚ)))

/-- The gradient written through `df[...] = (dlZ - t*mask) / count_bit` before
the zeroing loop. -/
noncomputable def asdn_df_pre (f t : Nat → Nat → ℚ) (count_bit : Nat) (i c : Nat) : ℝ :=
  (asdn_dlZ f i c - (t i c : ℝ)) / count_bit

/-- The condition of the zeroing loop in `ASDNLossLayer.forward`: sample `i`
is kept exactly when `lbl > 0 and prop_after_select + score_thres <
prop_before_select`. -/
def asdn_keep (prop_before prop_after : Nat → Nat → ℚ) (labels : Nat → Nat)
    (score_thres : ℚ) (i : Nat) : Bool :=
  decide (0 < labels i) &&
    decide (prop_after i (labels i) + score_thres < prop_before i (labels i))

/-- Per-cell `lZ` after the loop `lZ[i] = lZ[i] * 0.0` for non-kept samples. -/
noncomputable def asdn_lZ_final (f t prop_before prop_after : Nat → Nat → ℚ)
    (labels : Nat → Nat) (score_thres : ℚ) (i c : Nat) : ℝ :=
  if asdn_keep prop_before prop_after labels score_thres i then asdn_lZ f t i c else 0

/-- Per-cell `df` after the loop `df[i] = lZ[i] * 0.0` for non-kept samples
(`lZ[i]` is zero at that point, so the row becomes zero). -/
noncomputable def asdn_df_final (f t prop_before prop_after : Nat → Nat → ℚ)
    (labels : Nat → Nat) (score_thres : ℚ) (count_bit : Nat) (i c : Nat) : ℝ :=
  if asdn_keep prop_before prop_after labels score_thres i then
    asdn_df_pre f t count_bit i c
  else 0

/-- Result of one `ASDNLossLayer.forward` invocation: the updated iteration
counter, the value left in `top[0]`, and the gradient left in
`bottom[0].diff`. -/
structure AsdnForwardOut where
  countIter : Nat
  top : ℝ
  df : Nat → Nat → ℝ

/-- `ASDNLossLayer.forward`.  `N` is `bottom[0].shape[0]`, `cells` the number
of mask cells per sample (`count_bit = N * cells` is the product of
`bottom[0].shape`).  In the maintain branch (`self._count_iter <
self._maintain_before` after the modular increment) the code zeroes
`bottom[0].diff` and returns without writing `top[0]` (the line
`top[0].data[0] = 0.0` is commented out in the source), so `top[0]` keeps its
previous value `prev_top`. -/
noncomputable def asdn_loss_forward (iter_size maintain_before : Nat) (score_thres : ℚ)
    (N cells count_iter : Nat) (prev_top : ℝ)
    (f t prop_before prop_after : Nat → Nat → ℚ) (labels : Nat → Nat) : AsdnForwardOut :=
  let count' := (count_iter + 1) % iter_size
  if count' < maintain_before then
    { countIter := count', top := prev_top, df := fun _ _ => 0 }
  else
    let count_bit := N * cells
    { countIter := count',
      top := (∑ i ∈ Finset.range N, ∑ c ∈ Finset.range cells,
        asdn_lZ_final f t prop_before prop_after labels score_thres i c) / count_bit,
      df := asdn_df_final f t prop_before prop_after labels score_thres count_bit }

/-- The scan over replicas in `ASDNPretrainLossLayer.forward`: a fold over
`j in range(n)` carrying `(min_prop, min_id)`, initialised to `(1e6, 0)`,
updated whenever `min_prop > g j` (i.e. `g j < min_prop`); `idf j` is the
replica row index stored on an update (`j * N + i` at the call site). -/
def prop_scan (g : Nat → ℚ) (idf : Nat → Nat) (n : Nat) : ℚ × Nat :=
  (List.range n).foldl (fun st j => if g j < st.1 then (g j, idf j) else st) (1000000, 0)

/-- `min_id` after the scan for sample `i`: the probe reads
`prop[j * N + i][nowlbl]`. -/
def asdn_scan_min_id (prop : Nat → Nat → ℚ) (lbl attempts N i : Nat) : Nat :=
  (prop_scan (fun j => prop (j * N + i) lbl) (fun j => j * N + i) attempts).2

/-- `mask_label[i] = conv_feat_mask[min_id]` in `ASDNPretrainLossLayer.forward`
(`nowlbl = int(labels_pos[i])`). -/
def pretrain_mask_label (prop : Nat → Nat → ℚ) (labels : Nat → Nat)
    (conv_feat_mask : Nat → Nat → ℚ) (attempts N i c : Nat) : ℚ :=
  conv_feat_mask (asdn_scan_min_id prop (labels i) attempts N i) c

/-- The gradient stored in `bottom[0].diff` by
`ASDNPretrainLossLayer.forward`: `df[...] = (dlZ - t*mask) / count_bit` with
`mask = 1` (`self.ignore_label` is `None`) and `t = mask_label`.  The later
line `df = df * bp_mask` under `drop_neg` rebinds the local Python name `df`
to a freshly allocated product array and performs no in-place write, so
`bottom[0].diff` is unaffected by it. -/
noncomputable def pretrain_forward_diff (f prop : Nat → Nat → ℚ) (labels : Nat → Nat)
    (conv_feat_mask : Nat → Nat → ℚ) (attempts N count_bit : Nat) (i c : Nat) : ℝ :=
  (asdn_dlZ f i c -
    (pretrain_mask_label prop labels conv_feat_mask attempts N i c : ℝ)) / count_bit

/-- `bp_mask` computed under `drop_neg`: a copy of `mask_label` whose cells
with uniform draw `randnum < 0.4` are overwritten with 1 (rescued); a cell
keeps label 0 (is meant to be excluded from the gradient) exactly when its
label is 0 and its draw is `≥ 0.4`. -/
def pretrain_bp_mask (mask_label_v rand : Nat → Nat → ℚ) (i c : Nat) : ℚ :=
  if rand i c < 2/5 then 1 else mask_label_v i c

/-- `ASDNPretrainLossLayer.backward`: `bottom[0].diff[...] *= top[0].diff`,
applied to the diff left by `forward`. -/
noncomputable def pretrain_backward_diff (f prop : Nat → Nat → ℚ) (labels : Nat → Nat)
    (conv_feat_mask : Nat → Nat → ℚ) (attempts N count_bit : Nat) (top_diff : ℚ)
    (i c : Nat) : ℝ :=
  pretrain_forward_diff f prop labels conv_feat_mask attempts N count_bit i c * top_diff

/-- Insertion step of the index sort modelling `np.argsort`. -/
def insert_by_key (v : Nat → ℚ) (a : Nat) : List Nat → List Nat
  | [] => [a]
  | b :: l => if v a ≤ v b then a :: b :: l else b :: insert_by_key v a l

/-- `np.argsort` over indices `0..n-1` of the value vector `v`: the indices
in ascending order of value (an insertion sort; the claims proved below do
not depend on the order of equal keys). -/
def argsort (v : Nat → ℚ) (n : Nat) : List Nat :=
  (List.range n).foldr (insert_by_key v) []

/-- One sample of `ASDNDataLayer.thres_mask_rand`.  `mask_pred_row` is the
sample's row of `mask_pred` flattened to `mask_pixels` entries before the
global inversion `mask_pred = 1 - mask_pred`.  The random draws are explicit
inputs: `neg_rp` is `np.random.permutation(np.arange(mask_pixels))[0:count_drop_neg]`
for the label-0 branch, `pos_rp` is
`np.random.permutation(np.arange(permute_count))[0:count_drop]` for the
positive branch (the hypotheses of the theorems below constrain them to
exactly these shapes).  In the positive branch `now_ids = sorted_ids[rp]`
drops the selected cells; `getD` stands for numpy's fancy indexing, which is
in bounds because `rp` draws from `range(permute_count)` and
`permute_count ≤ mask_pixels = len(sorted_ids)`. -/
def thres_mask_rand_sample (mask_pred_row : Nat → ℚ) (label mask_pixels count_drop_neg : Nat)
    (pos_rp neg_rp : List Nat) (idx : Nat) : ℚ :=
  if label = 0 then
    (if 0 < count_drop_neg ∧ idx ∈ neg_rp then 0 else 1)
  else
    (if idx ∈ pos_rp.map
        (fun r => (argsort (fun k => 1 - mask_pred_row k) mask_pixels).getD r 0)
     then 0 else 1)

/-- `int(np.ceil(float(pool_len) / float(drop_stride)))` in
`ASDNPretrainDataLayer.generate_feature`. -/
def rep_num (pool_len drop_stride : Nat) : Nat :=
  Nat.ceil ((pool_len : ℚ) / drop_stride)

/-- Window start along one axis for sliding index `i`: `startx = i *
drop_stride`, decremented by one when `startx + drop_size > pool_len`.
(ℕ truncation of the decrement differs from Python's `-1` only when
`drop_size > pool_len`, which the theorems below exclude; for `i ≥ 1` the
start is at least `drop_stride ≥ 1`.) -/
def window_start (pool_len drop_size drop_stride i : Nat) : Nat :=
  if pool_len < i * drop_stride + drop_size then i * drop_stride - 1 else i * drop_stride

/-- `endx = np.min((startx + drop_size, pool_len))`. -/
def window_end (pool_len drop_size drop_stride i : Nat) : Nat :=
  min (window_start pool_len drop_size drop_stride i + drop_size) pool_len

/-- Membership of cell `(x, y)` in the window of sliding indices `(i, j)`
(the slice `startx : endx, starty : endy`). -/
def in_window (pool_len drop_size drop_stride i j x y : Nat) : Bool :=
  decide (window_start pool_len drop_size drop_stride i ≤ x) &&
  decide (x < window_end pool_len drop_size drop_stride i) &&
  decide (window_start pool_len drop_size drop_stride j ≤ y) &&
  decide (y < window_end pool_len drop_size drop_stride j)

/-- `conv_feat_mask` produced by `generate_feature` at replica row `r`, cell
`(x, y)`: rows `cnt * sample_num .. cnt * sample_num + sample_num - 1` carry
the mask of window counter `cnt = i * rep_num + j` (1 on the window, 0
elsewhere). -/
def conv_feat_mask_val (pool_len drop_size drop_stride sample_num : Nat) (r x y : Nat) : ℚ :=
  let cnt := r / sample_num
  let i := cnt / rep_num pool_len drop_stride
  let j := cnt % rep_num pool_len drop_stride
  if in_window pool_len drop_size drop_stride i j x y then 1 else 0

/-- `conv_feat_rep` produced by `generate_feature` at replica row `r`,
channel `ch`, cell `(x, y)`: a copy of input sample `r % sample_num` with the
window cells multiplied by 0. -/
def conv_feat_rep_val (pool_len drop_size drop_stride sample_num : Nat)
    (conv_feat : Nat → Nat → Nat → Nat → ℚ) (r ch x y : Nat) : ℚ :=
  let cnt := r / sample_num
  let s := r % sample_num
  let i := cnt / rep_num pool_len drop_stride
  let j := cnt % rep_num pool_len drop_stride
  if in_window pool_len drop_size drop_stride i j x y then 0 else conv_feat s ch x y

/-- Number of replica rows `generate_feature` returns
(`sample_num * rep_num_area`). -/
def gen_feature_rows (pool_len drop_stride sample_num : Nat) : Nat :=
  sample_num * (rep_num pool_len drop_stride * rep_num pool_len drop_stride)

/- ------------------------------------------------------------------ -/
/- Theorems                                                            -/
/- ------------------------------------------------------------------ -/

theorem prop_scan_spec (g : Nat → ℚ) (idf : Nat → Nat) (n : Nat) (hn : 0 < n)
    (hb : ∀ j, j < n → g j < 1000000) :
    ∃ jm, jm < n ∧ prop_scan g idf n = (g jm, idf jm) ∧
      (∀ j, j < n → g jm ≤ g j) ∧ (∀ j, j < jm → g jm < g j) := by
  induction n with
  | zero => omega
  | succ m ih =>
    rcases Nat.eq_zero_or_pos m with hm | hm
    · subst hm
      refine ⟨0, by omega, ?_, ?_, ?_⟩
      · have h0 : g 0 < 1000000 := hb 0 (by omega)
        simp [prop_scan, List.range_succ, h0]
      · intro j hj
        have : j = 0 := by omega
        simp [this]
      · intro j hj; omega
    · obtain ⟨jm, hjm, heq, hmin, hfirst⟩ := ih hm (fun j hj => hb j (by omega))
      simp only [prop_scan] at heq
      have hstep : prop_scan g idf (m + 1) =
          if g m < g jm then (g m, idf m) else (g jm, idf jm) := by
        simp only [prop_scan, List.range_succ, List.foldl_append, List.foldl_cons,
          List.foldl_nil, heq]
      by_cases hlt : g m < g jm
      · refine ⟨m, by omega, by rw [hstep, if_pos hlt], ?_, ?_⟩
        · intro j hj
          rcases Nat.lt_or_ge j m with hj' | hj'
          · exact le_of_lt (lt_of_lt_of_le hlt (hmin j hj'))
          · have : j = m := by omega
            simp [this]
        · intro j hj
          exact lt_of_lt_of_le hlt (hmin j hj)
      · push_neg at hlt
        refine ⟨jm, by omega, by rw [hstep, if_neg (not_lt.mpr hlt)], ?_, hfirst⟩
        intro j hj
        rcases Nat.lt_or_ge j m with hj' | hj'
        · exact hmin j hj'
        · have : j = m := by omega
          simpa [this] using hlt

theorem setup_run_full (m n : Nat) : setup_run (List.range m) (some m) n = true ↔ n ≠ m := by
  simp only [setup_run, List.any_eq_true, List.mem_range, Bool.or_eq_true, bne_iff_ne,
    decide_eq_true_eq]
  constructor
  · rintro (⟨i, hi, hni⟩ | h)
    · omega
    · exact h
  · intro h
    by_cases hlt : n < m
    · exact Or.inl ⟨n, hlt, le_rfl⟩
    · exact Or.inr h

theorem setup_run_noassert (m n : Nat) : setup_run (List.range m) none n = true ↔ n < m := by
  simp only [setup_run, List.any_eq_true, List.mem_range, Bool.or_eq_false_iff,
    decide_eq_true_eq, Bool.or_false]
  constructor
  · rintro ⟨i, hi, hni⟩; omega
  · intro h; exact ⟨n, h, le_rfl⟩

/-- C8 (counterexample): `ASTNDataLayer.setup` declares one output name, yet a
host supplying 5 output slots does not trigger any assertion failure, so the
claim "every layer's setup fails with an assertion on a count mismatch" is
false. -/
theorem C8_astn_setup_no_assert_cex :
    astn_data_setup_fails 5 = false ∧ (5 : Nat) ≠ astn_data_map_size := by
  constructor
  · rfl
  · decide

/-- C8 (amended): the seven non-ASTN layers fail setup exactly when the
supplied top-slot count differs from the declared name count (OHEM
additionally fails whenever `cfg.TRAIN.HAS_RPN` is set); `ASTNDataLayer.setup`
and `ASTNLossLayer.setup` perform no count assertion and fail only when
slot 0 is missing, accepting any surplus slot count. -/
theorem C8_setup_assertion_coverage :
    (∀ hasRpn bboxReg n, roi_setup_fails hasRpn bboxReg n = true ↔ n ≠ roi_map_size hasRpn bboxReg) ∧
    (∀ hasRpn bboxReg useAsdn n, ohem_setup_fails hasRpn bboxReg useAsdn n = true ↔
      (hasRpn = true ∨ n ≠ ohem_map_size bboxReg useAsdn)) ∧
    (∀ n, asdn_pretrain_loss_setup_fails n = true ↔ n ≠ 1) ∧
    (∀ n, asdn_pretrain_label_setup_fails n = true ↔ n ≠ 3) ∧
    (∀ n, asdn_pretrain_data_setup_fails n = true ↔ n ≠ 2) ∧
    (∀ n, asdn_loss_setup_fails n = true ↔ n ≠ 1) ∧
    (∀ n, asdn_data_setup_fails n = true ↔ n ≠ 2) ∧
    (∀ n, astn_data_setup_fails n = true ↔ n < astn_data_map_size) ∧
    (∀ n, astn_loss_setup_fails n = true ↔ n < astn_loss_map_size) := by
  refine ⟨?_, ?_, ?_, ?_, ?_, ?_, ?_, ?_, ?_⟩
  · intro hasRpn bboxReg n
    exact setup_run_full _ _
  · intro hasRpn bboxReg useAsdn n
    simp only [ohem_setup_fails, Bool.or_eq_true, setup_run_full]
  · intro n; exact setup_run_full _ _
  · intro n; exact setup_run_full _ _
  · intro n; exact setup_run_full _ _
  · intro n; exact setup_run_full _ _
  · intro n; exact setup_run_full _ _
  · intro n; exact setup_run_noassert _ _
  · intro n; exact setup_run_noassert _ _

/-- C9 (counterexample): in `ASTNLossLayer.forward` the logarithm is applied
to `1 - p_true_class` with no epsilon floor; with `p_true_class = 1` the
argument is exactly `0`, i.e. `log(0)` is evaluated, refuting "every logarithm
of a class probability computed in a forward pass is guarded with a
machine-epsilon floor". -/
theorem C9_astn_log_unguarded_cex :
    astn_log_arg (fun _ _ => 1) (fun _ => 1) 0 = 0 ∧
      ¬ flt_min ≤ astn_log_arg (fun _ _ => 1) (fun _ => 1) 0 := by
  constructor
  · norm_num [astn_log_arg]
  · norm_num [astn_log_arg, flt_min]

/-- C9 (amended): the OHEM classification loss floors the argument of its
logarithm at `np.finfo(float).eps > 0`, so `log(0)` is never evaluated there;
the ASTN loss applies `log` to `1 - p_true_class` with no such floor. -/
theorem C9_ohem_log_guarded :
    ∀ (cls_prob : Nat → Nat → ℚ) (labels : Nat → Nat) (i : Nat),
      0 < flt_min ∧ flt_min ≤ ohem_cls_log_arg cls_prob labels i := by
  intro cls_prob labels i
  refine ⟨by norm_num [flt_min], le_max_right _ _⟩

/-- C1: the angle-0 round trip fails.  On a 2×2 map with value 5 at position
(0,1), the output at (0,1) is 0: the pixel coordinate hits the grid border,
the clipped corner indices collapse, and all four bilinear weights vanish.
On a 3×3 map with value 7 at (1,0), the output at (0,1) is 7: interior
positions are transposed (`source` is gathered with the x coordinate on the
height axis).  Both contradict "the sampled output value equals the source
value at that same position". -/
theorem C1_identity_round_trip_fails :
    astn_trans_feat_angle0 (fun _ _ a b => if a = 0 ∧ b = 1 then (5 : ℚ) else 0) 2 2 0 0 0 1 = 0 ∧
    (fun (_ _ a b : Nat) => if a = 0 ∧ b = 1 then (5 : ℚ) else 0) 0 0 0 1 = 5 ∧
    astn_trans_feat_angle0 (fun _ _ a b => if a = 1 ∧ b = 0 then (7 : ℚ) else 0) 3 3 0 0 0 1 = 7 ∧
    (fun (_ _ a b : Nat) => if a = 1 ∧ b = 0 then (7 : ℚ) else 0) 0 0 0 1 = 0 := by
  refine ⟨?_, by norm_num, ?_, by norm_num⟩
  · norm_num [astn_trans_feat_angle0, astn_trans_feat, bilinear_sample, grid_x, grid_y,
      linspace, clip_idx]
  · norm_num [astn_trans_feat_angle0, astn_trans_feat, bilinear_sample, grid_x, grid_y,
      linspace, clip_idx]

/-- C2 (counterexample): batch of 2 with labels `[0, 1]` and probability 1/2
for sample 1's true class.  The code's output is `log 2 / 2` (sum divided by
the batch size), while the claim's "average over the samples whose label is
non-background" is `log 2`; they differ. -/
theorem C2_astn_loss_divisor_cex :
    astn_loss_top (fun _ _ => 1/2) (fun i => if i = 1 then 1 else 0) 2 ≠
      astn_spec_avg_nonbg (fun _ _ => 1/2) (fun i => if i = 1 then 1 else 0) 2 := by
  have hfilter : (Finset.range 2).filter
      (fun i => (fun i => if i = 1 then 1 else 0) i ≠ 0) = {1} := by decide
  have hraw : astn_loss_raw (fun _ _ => 1/2) (fun i => if i = 1 then 1 else 0) 1 = Real.log 2 := by
    simp only [astn_loss_raw]
    norm_num
    rw [one_div, Real.log_inv]
    ring
  have hlog : 0 < Real.log 2 := Real.log_pos one_lt_two
  simp only [astn_loss_top, astn_spec_avg_nonbg, hfilter, Finset.sum_range_succ,
    Finset.sum_range_zero, Finset.sum_singleton, Finset.card_singleton, astn_loss_vec]
  norm_num [hraw]
  intro h
  linarith

/-- C2 (amended): every sample with label 0 contributes exactly 0, every
sample with label > 0 contributes `-log(1 - p_true_class)`, and the scalar
output is the sum of these contributions divided by the full batch size (not
by the number of non-background samples). -/
theorem C2_astn_loss_characterization (prob_pre : Nat → Nat → ℚ) (labels : Nat → Nat)
    (batch_size : Nat) :
    (∀ i, labels i = 0 → astn_loss_vec prob_pre labels i = 0) ∧
    (∀ i, labels i ≠ 0 →
      astn_loss_vec prob_pre labels i = -Real.log (1 - (prob_pre i (labels i) : ℝ))) ∧
    astn_loss_top prob_pre labels batch_size =
      (∑ i ∈ (Finset.range batch_size).filter (fun i => labels i ≠ 0),
        astn_loss_raw prob_pre labels i) / batch_size := by
  refine ⟨fun i h => by simp [astn_loss_vec, h], fun i h => by simp [astn_loss_vec, h, astn_loss_raw], ?_⟩
  simp only [astn_loss_top]
  congr 1
  rw [Finset.sum_filter]
  apply Finset.sum_congr rfl
  intro i _
  by_cases h : labels i = 0 <;> simp [astn_loss_vec, h]

/-- C3: outside the maintain period, the scalar loss is the sum of the kept
per-cell terms over `count_bit`, a sample with label 0 has its loss and
gradient rows zeroed, a sample with label > 0 is also zeroed unless
`prop_after + score_thres < prop_before` for its true class, and only samples
satisfying both keep their per-cell loss (`lZ`) and gradient
(`(dlZ - t)/count_bit`) terms. -/
theorem C3_asdn_finetune_gating (iter_size maintain_before : Nat) (score_thres : ℚ)
    (N cells count_iter : Nat) (prev_top : ℝ)
    (f t prop_before prop_after : Nat → Nat → ℚ) (labels : Nat → Nat)
    (h : maintain_before ≤ (count_iter + 1) % iter_size) :
    (asdn_loss_forward iter_size maintain_before score_thres N cells count_iter prev_top
        f t prop_before prop_after labels).top =
      (∑ i ∈ Finset.range N, ∑ c ∈ Finset.range cells,
        asdn_lZ_final f t prop_before prop_after labels score_thres i c) /
        ((N * cells : Nat) : ℝ) ∧
    ∀ i c,
      (labels i = 0 →
        asdn_lZ_final f t prop_before prop_after labels score_thres i c = 0 ∧
        (asdn_loss_forward iter_size maintain_before score_thres N cells count_iter prev_top
          f t prop_before prop_after labels).df i c = 0) ∧
      (0 < labels i →
        ¬ (prop_after i (labels i) + score_thres < prop_before i (labels i)) →
        asdn_lZ_final f t prop_before prop_after labels score_thres i c = 0 ∧
        (asdn_loss_forward iter_size maintain_before score_thres N cells count_iter prev_top
          f t prop_before prop_after labels).df i c = 0) ∧
      (0 < labels i →
        prop_after i (labels i) + score_thres < prop_before i (labels i) →
        asdn_lZ_final f t prop_before prop_after labels score_thres i c = asdn_lZ f t i c ∧
        (asdn_loss_forward iter_size maintain_before score_thres N cells count_iter prev_top
          f t prop_before prop_after labels).df i c = asdn_df_pre f t (N * cells) i c) := by
  have hbranch : ¬ ((count_iter + 1) % iter_size < maintain_before) := not_lt.mpr h
  simp only [asdn_loss_forward, hbranch, if_false, true_and]
  intro i c
  refine ⟨?_, ?_, ?_⟩
  · intro h0
    have hk : asdn_keep prop_before prop_after labels score_thres i = false := by
      simp [asdn_keep, h0]
    simp [asdn_lZ_final, asdn_df_final, hk]
  · intro hpos hnot
    have hk : asdn_keep prop_before prop_after labels score_thres i = false := by
      simp [asdn_keep, hpos, hnot]
    simp [asdn_lZ_final, asdn_df_final, hk]
  · intro hpos hlt
    have hk : asdn_keep prop_before prop_after labels score_thres i = true := by
      simp [asdn_keep, hpos, hlt]
    simp [asdn_lZ_final, asdn_df_final, hk]

theorem C3_asdn_finetune_gating_witness :
    (asdn_loss_forward 1 0 0 1 1 0 0
        (fun _ _ => 0) (fun _ _ => 0) (fun _ _ => 0) (fun _ _ => 0) (fun _ => 0)).df 0 0 = 0 :=
  (((C3_asdn_finetune_gating 1 0 0 1 1 0 0
      (fun _ _ => 0) (fun _ _ => 0) (fun _ _ => 0) (fun _ _ => 0) (fun _ => 0)
      (by decide)).2 0 0).1 rfl).2

/-- C4 (counterexample): an invocation inside the maintain period does zero
the gradient, but it does not write the scalar loss output: with a previous
`top[0]` value of 5 (left over from an earlier active iteration, the counter
having wrapped modulo `iter_size`), the loss output after the invocation is
still 5, not 0. -/
theorem C4_maintain_top_not_zeroed_cex :
    (asdn_loss_forward 2 2 0 1 1 0 5
        (fun _ _ => 0) (fun _ _ => 0) (fun _ _ => 0) (fun _ _ => 0) (fun _ => 0)).top = 5 ∧
    (5 : ℝ) ≠ 0 := by
  constructor
  · norm_num [asdn_loss_forward]
  · norm_num

/-- C4 (amended): for every invocation of `ASDNLossLayer.forward` whose
counter (maintained modulo `iter_size`) is below `maintain_before`, the
gradient written to the mask-predictor input is all zeros, and the scalar
loss output slot is left unwritten, retaining whatever value it previously
held (it is zero only if the previous value was zero). -/
theorem C4_maintain_period_behavior (iter_size maintain_before : Nat) (score_thres : ℚ)
    (N cells count_iter : Nat) (prev_top : ℝ)
    (f t prop_before prop_after : Nat → Nat → ℚ) (labels : Nat → Nat)
    (h : (count_iter + 1) % iter_size < maintain_before) :
    (∀ i c, (asdn_loss_forward iter_size maintain_before score_thres N cells count_iter
        prev_top f t prop_before prop_after labels).df i c = 0) ∧
    (asdn_loss_forward iter_size maintain_before score_thres N cells count_iter
        prev_top f t prop_before prop_after labels).top = prev_top ∧
    (asdn_loss_forward iter_size maintain_before score_thres N cells count_iter
        prev_top f t prop_before prop_after labels).countIter =
      (count_iter + 1) % iter_size := by
  simp [asdn_loss_forward, h]

theorem C4_maintain_period_behavior_witness :
    (asdn_loss_forward 2 2 0 1 1 0 0
        (fun _ _ => 0) (fun _ _ => 0) (fun _ _ => 0) (fun _ _ => 0) (fun _ => 0)).df 0 0 = 0 :=
  (C4_maintain_period_behavior 2 2 0 1 1 0 0
      (fun _ _ => 0) (fun _ _ => 0) (fun _ _ => 0) (fun _ _ => 0) (fun _ => 0)
      (by decide)).1 0 0

/-- C5: for every positive sample `i`, the mask label is the window mask of
the replica `jm * N + i` whose ground-truth-class probability is minimal
among the sample's replicas, found by the linear scan; on ties of the
probability the first occurrence (lowest replica index `jm`) wins.  The
hypotheses mirror the call site: the layer asserts `labels_pos[i] > 0`, at
least one replica exists, and the probed values are class probabilities,
hence below the scan's `1e6` initialiser. -/
theorem C5_hardest_mask_selection (prop : Nat → Nat → ℚ) (labels : Nat → Nat)
    (conv_feat_mask : Nat → Nat → ℚ) (attempts N i : Nat)
    (hpos : 0 < labels i) (hatt : 0 < attempts)
    (hb : ∀ j, j < attempts → prop (j * N + i) (labels i) < 1000000) :
    ∃ jm, jm < attempts ∧
      asdn_scan_min_id prop (labels i) attempts N i = jm * N + i ∧
      (∀ j, j < attempts →
        prop (jm * N + i) (labels i) ≤ prop (j * N + i) (labels i)) ∧
      (∀ j, j < jm → prop (jm * N + i) (labels i) < prop (j * N + i) (labels i)) ∧
      (∀ c, pretrain_mask_label prop labels conv_feat_mask attempts N i c =
        conv_feat_mask (jm * N + i) c) := by
  obtain ⟨jm, h1, h2, h3, h4⟩ :=
    prop_scan_spec (fun j => prop (j * N + i) (labels i)) (fun j => j * N + i) attempts hatt hb
  refine ⟨jm, h1, ?_, h3, h4, ?_⟩
  · simp [asdn_scan_min_id, h2]
  · intro c
    simp [pretrain_mask_label, asdn_scan_min_id, h2]

theorem C5_hardest_mask_selection_witness :
    asdn_scan_min_id (fun r _ => if r = 1 then (1/4 : ℚ) else 1/2) 1 2 1 0 = 1 := by
  obtain ⟨jm, hlt, heq, hmin, hfirst, hmask⟩ :=
    C5_hardest_mask_selection (fun r _ => if r = 1 then (1/4 : ℚ) else 1/2)
      (fun _ => 1) (fun _ _ => 0) 2 1 0 (by decide) (by decide)
      (by intro j hj; interval_cases j <;> norm_num)
  interval_cases jm
  · exfalso
    have h := hmin 1 (by omega)
    norm_num at h
  · simpa using heq

/-- C6: evaluating the code at a concrete input where a cell is meant to be
excluded (`drop_neg` on, hardest-mask label 0 at the cell, uniform draw
`0.9 ≥ 0.4`, so `bp_mask` is 0 there): one positive sample, one replica, one
mask cell, `mask_pred f = 0`, `count_bit = 1`, top gradient 1.  The gradient
ultimately applied to the mask-predictor input at that cell is
`sigmoid(0)/1 · 1 = 1/2`, not 0, because `df = df * bp_mask` rebinds a local
name instead of writing `bottom[0].diff`. -/
theorem C6_drop_neg_exclusion_not_applied :
    pretrain_bp_mask
        (fun i c => pretrain_mask_label (fun _ _ => 1/2) (fun _ => 1) (fun _ _ => 0) 1 1 i c)
        (fun _ _ => 9/10) 0 0 = 0 ∧
    pretrain_backward_diff (fun _ _ => 0) (fun _ _ => 1/2) (fun _ => 1) (fun _ _ => 0)
        1 1 1 1 0 0 = 1/2 ∧
    (1/2 : ℝ) ≠ 0 := by
  refine ⟨?_, ?_, by norm_num⟩
  · norm_num [pretrain_bp_mask, pretrain_mask_label]
  · norm_num [pretrain_backward_diff, pretrain_forward_diff, asdn_dlZ, pretrain_mask_label,
      asdn_scan_min_id, prop_scan, Real.exp_zero]

/-- C7: for a positive-labeled sample, `thres_mask_rand` zeroes at least 0
and at most `count_drop` cells of the `mask_pixels`-cell grid: the zeroed
cells are the `sorted_ids[rp]` with `rp` a `count_drop`-prefix of a random
permutation of `range(permute_count)`, so there are at most `count_drop` of
them. -/
theorem C7_mask_drop_budget (mask_pred_row : Nat → ℚ)
    (label mask_pixels count_drop permute_count count_drop_neg : Nat)
    (pos_rp neg_rp : List Nat)
    (hlabel : 0 < label)
    (hrp : ∃ perm : List Nat,
      perm.Perm (List.range permute_count) ∧ pos_rp = perm.take count_drop)
    (hpc : permute_count ≤ mask_pixels) :
    0 ≤ ((Finset.range mask_pixels).filter
        (fun idx => thres_mask_rand_sample mask_pred_row label mask_pixels count_drop_neg
          pos_rp neg_rp idx = 0)).card ∧
    ((Finset.range mask_pixels).filter
        (fun idx => thres_mask_rand_sample mask_pred_row label mask_pixels count_drop_neg
          pos_rp neg_rp idx = 0)).card ≤ count_drop := by
  obtain ⟨perm, hperm, hposrp⟩ := hrp
  refine ⟨Nat.zero_le _, ?_⟩
  have hlab : ¬ label = 0 := by omega
  set ids := pos_rp.map
    (fun r => (argsort (fun k => 1 - mask_pred_row k) mask_pixels).getD r 0) with hids
  have hsub : (Finset.range mask_pixels).filter
      (fun idx => thres_mask_rand_sample mask_pred_row label mask_pixels count_drop_neg
        pos_rp neg_rp idx = 0) ⊆ ids.toFinset := by
    intro idx hidx
    simp only [Finset.mem_filter, Finset.mem_range] at hidx
    obtain ⟨-, hval⟩ := hidx
    simp only [thres_mask_rand_sample, hlab, if_false] at hval
    by_cases hmem : idx ∈ ids
    · simpa using hmem
    · rw [← hids] at hval
      simp [hmem] at hval
  calc ((Finset.range mask_pixels).filter _).card
      ≤ ids.toFinset.card := Finset.card_le_card hsub
    _ ≤ ids.length := List.toFinset_card_le _
    _ = pos_rp.length := List.length_map _ _
    _ ≤ count_drop := by rw [hposrp, List.length_take]; exact min_le_left _ _

theorem C7_mask_drop_budget_witness :
    0 ≤ ((Finset.range 4).filter
        (fun idx => thres_mask_rand_sample (fun _ => 0) 1 4 0 [1] [] idx = 0)).card ∧
    ((Finset.range 4).filter
        (fun idx => thres_mask_rand_sample (fun _ => 0) 1 4 0 [1] [] idx = 0)).card ≤ 1 :=
  C7_mask_drop_budget (fun _ => 0) 1 4 1 2 0 [1] [] (by decide)
    ⟨[1, 0], by decide, rfl⟩ (by decide)

/-- C10: `generate_feature` produces `sample_num * ceil(pool_len /
drop_stride)^2` replica rows; for every window counter `k` and sample `s`,
replica row `k * sample_num + s` equals input sample `s` wherever its mask is
0 and equals 0 wherever its mask is 1, and the mask-1 cells form one
rectangular window with sides at most `drop_size`, contained in the
`pool_len × pool_len` grid.  The hypotheses `1 ≤ drop_stride` (the source
divides by it) and `drop_size ≤ pool_len` (pooled-grid window) are the
regime in which the ℕ model of the boundary decrement agrees with the numpy
code. -/
theorem C10_generate_feature_windows (pool_len drop_size drop_stride sample_num : Nat)
    (conv_feat : Nat → Nat → Nat → Nat → ℚ)
    (_hstride : 1 ≤ drop_stride) (_hsize : drop_size ≤ pool_len) :
    gen_feature_rows pool_len drop_stride sample_num =
      sample_num * (Nat.ceil ((pool_len : ℚ) / drop_stride)) ^ 2 ∧
    ∀ k s, k < rep_num pool_len drop_stride * rep_num pool_len drop_stride →
      s < sample_num →
      (∀ ch x y,
        (conv_feat_mask_val pool_len drop_size drop_stride sample_num
            (k * sample_num + s) x y = 0 →
          conv_feat_rep_val pool_len drop_size drop_stride sample_num conv_feat
            (k * sample_num + s) ch x y = conv_feat s ch x y) ∧
        (conv_feat_mask_val pool_len drop_size drop_stride sample_num
            (k * sample_num + s) x y = 1 →
          conv_feat_rep_val pool_len drop_size drop_stride sample_num conv_feat
            (k * sample_num + s) ch x y = 0)) ∧
      ∃ sx ex sy ey, ex ≤ pool_len ∧ ey ≤ pool_len ∧
        ex - sx ≤ drop_size ∧ ey - sy ≤ drop_size ∧
        ∀ x y, (conv_feat_mask_val pool_len drop_size drop_stride sample_num
            (k * sample_num + s) x y = 1 ↔
          (sx ≤ x ∧ x < ex ∧ sy ≤ y ∧ y < ey)) := by
  constructor
  · simp [gen_feature_rows, rep_num, pow_two]
  intro k s hk hs
  have hsn : 0 < sample_num := by omega
  have hdiv : (k * sample_num + s) / sample_num = k := by
    rw [Nat.mul_comm, Nat.mul_add_div hsn, Nat.div_eq_of_lt hs, Nat.add_zero]
  have hmod : (k * sample_num + s) % sample_num = s := by
    rw [Nat.mul_comm, Nat.mul_add_mod]
    exact Nat.mod_eq_of_lt hs
  constructor
  · intro ch x y
    constructor
    · intro hmask
      simp only [conv_feat_mask_val, hdiv] at hmask
      simp only [conv_feat_rep_val, hdiv, hmod]
      by_cases hw : in_window pool_len drop_size drop_stride
          (k / rep_num pool_len drop_stride) (k % rep_num pool_len drop_stride) x y = true
      · rw [if_pos hw] at hmask
        norm_num at hmask
      · rw [if_neg hw]
    · intro hmask
      simp only [conv_feat_mask_val, hdiv] at hmask
      simp only [conv_feat_rep_val, hdiv, hmod]
      by_cases hw : in_window pool_len drop_size drop_stride
          (k / rep_num pool_len drop_stride) (k % rep_num pool_len drop_stride) x y = true
      · rw [if_pos hw]
      · rw [if_neg hw] at hmask
        norm_num at hmask
  · refine ⟨window_start pool_len drop_size drop_stride (k / rep_num pool_len drop_stride),
      window_end pool_len drop_size drop_stride (k / rep_num pool_len drop_stride),
      window_start pool_len drop_size drop_stride (k % rep_num pool_len drop_stride),
      window_end pool_len drop_size drop_stride (k % rep_num pool_len drop_stride),
      min_le_right _ _, min_le_right _ _, ?_, ?_, ?_⟩
    · exact Nat.sub_le_iff_le_add.mpr
        (le_trans (min_le_left _ _) (by omega))
    · exact Nat.sub_le_iff_le_add.mpr
        (le_trans (min_le_left _ _) (by omega))
    · intro x y
      simp only [conv_feat_mask_val, hdiv]
      by_cases hw : in_window pool_len drop_size drop_stride
          (k / rep_num pool_len drop_stride) (k % rep_num pool_len drop_stride) x y = true
      · rw [if_pos hw]
        simp only [in_window, Bool.and_eq_true, decide_eq_true_eq] at hw
        simp only [eq_self_iff_true, true_iff]
        tauto
      · rw [if_neg hw]
        simp only [in_window, Bool.and_eq_true, decide_eq_true_eq] at hw
        constructor
        · intro h; norm_num at h
        · intro h; exact absurd (by tauto) hw

theorem C10_generate_feature_windows_witness :
    gen_feature_rows 3 2 1 = 1 * (Nat.ceil ((3 : ℚ) / 2)) ^ 2 :=
  (C10_generate_feature_windows 3 2 2 1 (fun _ _ _ _ => 0) (by decide) (by decide)).1
